import Mathlib

/-!
# Verification of the Prellblock `PRaftBFT` consensus follower

This file gives a shallow embedding of the consensus subsystem of the
Prellblock repository (crate `prellblock`, module `consensus`) and settles a
list of claims about it.

Embedded from the source files:
* `src/prellblock/src/consensus/praftbft/mod.rs` — `PRaftBFT::new`,
  `take_transactions`, `supermajority_reached`;
* `src/prellblock/src/consensus/praftbft/follower.rs` — the follower message
  handlers (`handle_append_message`, `handle_commit_message_inner`,
  `request_view_change`, `censorship_checker`) and the queue pruning done at
  commit time;
* `src/prellblock/src/consensus/block.rs` — `Block`, `Body`, `BlockHash`.

The crate files `state.rs`, `error.rs`, `flatten_vec.rs` and `ring_buffer.rs`
and the signature library `pinxit` are not part of the given sources; the
definitions standing in for them are modelled from the specification and say
so in their doc comments.

Machine integers (`u64` block numbers and leader terms, map sizes) are
modelled as `Nat`: the program only ever increments them by one, so overflow
is not reachable in any scenario the claims quantify over.
-/

namespace Prellblock

/-- Peer identity (a public key in the implementation, `pinxit::PeerId`). -/
abbrev PeerId := Nat

/-- Network address of a peer (`std::net::SocketAddr`); opaque to consensus. -/
abbrev SocketAddr := Nat

/-- Leader term (`LeaderTerm`, a monotonic u64 epoch). -/
abbrev LeaderTerm := Nat

/-- Block number (`BlockNumber`, a monotonic u64 height). -/
abbrev BlockNumber := Nat

/-- Digest value standing for a `BlockHash` (Blake2b-512 in the
implementation); the handlers only compare hashes for equality, so any type
with decidable equality is a faithful carrier. -/
abbrev BlockHash := Nat

/-- Opaque transaction payload (`prellblock_client_api::Transaction`); the
consensus core only verifies it and compares it for equality. -/
abbrev Transaction := Nat

/-- Modelled from the spec: a client-signed transaction
(`pinxit::Signed<Transaction>`). The signature library is not among the given
sources; per the spec a signed blob can be (a) verified and (b) compared for
equality, so we carry the signer, the payload, and whether the signature
verifies (`verify_ref` succeeds exactly when `sigOk`). -/
structure SignedTx where
  signer : PeerId
  tx : Transaction
  sigOk : Bool
deriving DecidableEq, Repr

/-- Which acknowledgement payload a consensus signature covers. -/
inductive AckKind
  | ackPrepare
  | ackAppend
deriving DecidableEq, Repr

/-- Payload of an `AckPrepare`/`AckAppend` message, the data that peers sign
during the prepare and append phases. -/
structure AckPayload where
  kind : AckKind
  leader_term : LeaderTerm
  block_number : BlockNumber
  block_hash : BlockHash
deriving DecidableEq, Repr

/-- Modelled from the spec: a `pinxit::Signature` produced by a peer over an
acknowledgement payload. Idealized signature scheme: a signature records the
signer and the exact payload it was made over. -/
structure Sig where
  signer : PeerId
  payload : AckPayload
deriving DecidableEq, Repr

/-- Modelled from the spec: `peer_id.verify(&message, &signature)` of
`pinxit` — a signature verifies for a peer and payload exactly when it was
made by that peer over that payload. -/
def verifySig (peer : PeerId) (payload : AckPayload) (s : Sig) : Bool :=
  s.signer == peer && s.payload == payload

/-- Signature map (`HashMap<PeerId, Signature>`) carried by `Append` and
`Commit` messages and stored inside a persisted `Block`. The handlers use its
size, iterate over its entries, and store it whole; an association list models
all of that. -/
abbrev SigMap := List (PeerId × Sig)

/-- Body of a block, from `block.rs`: `(leader_term, height, prev_block_hash,
transactions)`. -/
structure Body where
  leader_term : LeaderTerm
  height : BlockNumber
  prev_block_hash : BlockHash
  transactions : List SignedTx
deriving DecidableEq, Repr

/-- Block, from `block.rs`: a body together with the AckAppend signature map
of the supermajority that acknowledged it. -/
structure Block where
  body : Body
  signatures : SigMap
deriving DecidableEq, Repr

/-- Consensus message, from `message.rs` usage in `follower.rs` (the message
module itself is not among the given sources; constructors and fields are as
the handlers deconstruct them). -/
inductive ConsensusMessage
  | prepare (leader_term : LeaderTerm) (block_number : BlockNumber)
      (block_hash : BlockHash)
  | ackPrepare (leader_term : LeaderTerm) (block_number : BlockNumber)
      (block_hash : BlockHash)
  | append (leader_term : LeaderTerm) (block_number : BlockNumber)
      (block_hash : BlockHash) (ackprepare_signatures : SigMap)
      (data : List SignedTx)
  | ackAppend (leader_term : LeaderTerm) (block_number : BlockNumber)
      (block_hash : BlockHash)
  | commit (leader_term : LeaderTerm) (block_number : BlockNumber)
      (block_hash : BlockHash) (ackappend_signatures : SigMap)
  | ackCommit
  | viewChange (new_leader_term : LeaderTerm)
deriving DecidableEq, Repr

/-- Phase names used inside `Error::WrongPhase` (`error.rs`, modelled from the
spec's error list). -/
inductive PhaseName
  | waiting
  | prepare
  | append
  | committed
deriving DecidableEq, Repr

/-- Error type of the follower handlers (`error.rs` is not among the given
sources; variants are modelled from the spec's §7 error list and the
construction sites in `follower.rs`). `panicAssert` is not a Rust error value:
it marks a path on which the Rust code would panic (a failed `assert!` or an
`unreachable!`), so that the model stays total. -/
inductive Error
  | wrongLeader (peer : PeerId)
  | wrongLeaderTerm
  | wrongBlockNumber (n : BlockNumber)
  | wrongBlockHash
  | changedBlockHash
  | wrongPhase (current : PhaseName) (expected : PhaseName)
  | notEnoughSignatures
  | emptyBlock
  | invalidSignature
  | invalidTransaction
  | permissionDenied
  | notAnRpu (peer : PeerId)
  | panicAssert
deriving DecidableEq, Repr

/-- Metadata recorded at the Prepare transition (`state.rs` is not among the
given sources; modelled from the spec: `Prepare{leader, block_hash}`). -/
structure PhaseMeta where
  leader : PeerId
  block_hash : BlockHash
deriving DecidableEq, Repr

/-- Per-block round phase, modelled from the spec's §3 round state:
`Waiting`, `Prepare{leader, hash}`, `Append{leader, hash, body}`,
`Committed{hash}`. -/
inductive Phase
  | waiting
  | prepare (meta : PhaseMeta)
  | append (meta : PhaseMeta) (body : Body)
  | committed (block_hash : BlockHash)
deriving DecidableEq, Repr

/-- Name of a phase, `Phase::to_phase_name`. -/
def Phase.to_phase_name : Phase → PhaseName
  | .waiting => .waiting
  | .prepare _ => .prepare
  | .append _ _ => .append
  | .committed _ => .committed

/-- Round state of the block currently in flight, modelled from the spec:
a phase plus at most one buffered out-of-order Commit message. -/
structure RoundState where
  phase : Phase
  buffered_commit_message : Option ConsensusMessage
deriving DecidableEq, Repr

/-- Fresh round state (`RoundState::default()`). -/
def RoundState.dflt : RoundState :=
  { phase := .waiting, buffered_commit_message := none }

/-- Follower state, modelled from the spec's §3: current leader term,
committed block number, hash of the last committed block, the round-state ring
and the view state. The ring window is taken at its reference size W = 1
(spec §5, resource bounds), so a single slot — the one for height
`block_number + 1` — is live. The view state keeps the term of a pending
`ViewChanging` entry, which is all `request_view_change` touches. -/
structure FollowerState where
  leader_term : LeaderTerm
  block_number : BlockNumber
  last_block_hash : BlockHash
  round_state_slot : RoundState
  view_changing : Option LeaderTerm
deriving DecidableEq, Repr

/-- Environment of a running `PRaftBFT` instance: the static roster (the keys
of the `peers` map), the leader schedule, the external permission check, and
the body-hash function. The hash (`Body::hash`, Blake2b-512 over the postcard
encoding in `block.rs`) is kept abstract as a parameter: the handlers only
ever compare its output for equality. -/
structure Env where
  peers : List PeerId
  leaderOf : LeaderTerm → PeerId
  permOk : PeerId → Transaction → Bool
  bodyHash : Body → BlockHash

/-- Supermajority predicate from `mod.rs` (`supermajority_reached`): panics —
modelled as `none` — when the roster has fewer than four peers, otherwise
answers `number >= len * 2 / 3 + 1`. -/
def supermajority_reached (len number : Nat) : Option Bool :=
  if len < 4 then none
  else some (decide (len * 2 / 3 + 1 ≤ number))

/-- The quorum formula `len * 2 / 3 + 1 <= number` used by the handlers; the
panic of `supermajority_reached` on `len < 4` is checked separately at each
call site of the handler models. -/
def supermajorityB (len number : Nat) : Bool :=
  decide (len * 2 / 3 + 1 ≤ number)

/-- Handle to a constructed consensus instance; `PRaftBFT::new` returns it
wrapped in an `Arc`. Only the parts observable by the claims are kept: the
roster and the local identity. -/
structure ConsensusHandle where
  peers : List (PeerId × SocketAddr)
  identity : PeerId
deriving DecidableEq, Repr

/-- Constructor `PRaftBFT::new` from `mod.rs`. Its single `assert!` demands
that the local identity's peer id is a key of the `peers` map; a failed
assertion is a panic, modelled as `none`. No other check is performed on the
roster. -/
def PRaftBFT.new (identity : PeerId) (peers : List (PeerId × SocketAddr)) :
    Option ConsensusHandle :=
  if peers.any (fun p => p.1 == identity) then
    some { peers := peers, identity := identity }
  else
    none

/-- Transaction queue: FIFO of `(arrival_timestamp, transaction)` entries
(spec §4.7; `follower.rs` iterates it with exactly this entry shape).
Timestamps are instants measured in seconds. -/
abbrev Queue := List (Nat × SignedTx)

/-- Queue insertion, `take_transactions` in `mod.rs` pushing a batch into the
queue (`FlattenVec::push` is not among the given sources; modelled from the
spec §4.7: insertion is many-at-a-time, FIFO, each entry stamped with its
arrival time). -/
def take_transactions (queue : Queue) (now : Nat)
    (transactions : List SignedTx) : Queue :=
  queue ++ transactions.map (fun t => (now, t))

/-- Queue pruning performed by the commit path, `follower.rs` line 348:
`queue.retain(|(_, transaction)| !block.body.transactions.contains(transaction))`. -/
def pruneQueue (committed : List SignedTx) (queue : Queue) : Queue :=
  queue.filter (fun e => !committed.contains e.2)

/-- Censorship timeout, `CENSORSHIP_TIMEOUT` (10 seconds). -/
def CENSORSHIP_TIMEOUT : Nat := 10

/-- One iteration of `censorship_checker` from `follower.rs`. The loop body
awaits `new_view_receiver.recv()` (the new-view/leader-change channel, of
value type `LeaderTerm`) under a `CENSORSHIP_TIMEOUT` timer. Inputs describe
the scenario of one window: whether a commit-changed notification arrived,
whether a new-view notification arrived (the code's timeout completes without
firing exactly when one did), the queue, the current instant, and the current
leader term. Output: `some t` when the iteration broadcasts a view-change
request for term `t`, `none` when it requests nothing. The code never reads
the commit-changed channel here, so `commitOccurred` is unused. -/
def censorshipStep (commitOccurred newViewOccurred : Bool) (queue : Queue)
    (now : Nat) (leader_term : LeaderTerm) : Option LeaderTerm :=
  if newViewOccurred then
    none
  else if queue.any (fun e => CENSORSHIP_TIMEOUT < now - e.1) then
    some (leader_term + 1)
  else
    none

/-- Modelled from the spec, for comparison with `censorshipStep`: the watchdog
as §4.6 describes it, restarting its timer "each time a commit occurs
(observed via the commit-changed channel)". Identical to `censorshipStep`
except that the commit-changed channel, not the new-view channel, preempts the
timeout. -/
def censorshipStepSpec (commitOccurred newViewOccurred : Bool) (queue : Queue)
    (now : Nat) (leader_term : LeaderTerm) : Option LeaderTerm :=
  if commitOccurred then
    none
  else if queue.any (fun e => CENSORSHIP_TIMEOUT < now - e.1) then
    some (leader_term + 1)
  else
    none

/-- Leadership check `is_current_leader` (defined in `state.rs`, which is not
among the given sources). Modelled from the spec §4.3: the sender must be the
current leader for `leader_term`. -/
def isCurrentLeader (env : Env) (leader_term : LeaderTerm) (peer : PeerId) :
    Bool :=
  env.leaderOf leader_term == peer

/-- Term check of `FollowerState::verify_message_meta` (`state.rs` is not
among the given sources). Modelled from the spec §4.3 common preconditions:
`leader_term` must equal the follower's current term, else `WrongLeaderTerm`.
The block-number precondition is realised by the ring lookup
`FollowerState.round_state` and by the handlers' explicit comparisons. -/
def FollowerState.verify_message_meta (st : FollowerState)
    (leader_term : LeaderTerm) : Option Error :=
  if leader_term ≠ st.leader_term then some .wrongLeaderTerm else none

/-- Ring lookup `FollowerState::round_state` (`state.rs` is not among the
given sources). Modelled from the spec: the ring covers heights
`[committed+1 .. committed+W]` with reference window W = 1, so exactly the
slot for `block_number + 1` is live. -/
def FollowerState.round_state (st : FollowerState) (block_number : BlockNumber) :
    Except Error RoundState :=
  if block_number = st.block_number + 1 then .ok st.round_state_slot
  else .error (.wrongBlockNumber block_number)

/-- Return value of a handler, Rust's `Result<ConsensusMessage, Error>`. -/
inductive ConsensusResult
  | ok (message : ConsensusMessage)
  | error (e : Error)
deriving DecidableEq, Repr

/-- Discriminator for a handler return value, `Result::is_ok`. -/
def ConsensusResult.isOk : ConsensusResult → Bool
  | .ok _ => true
  | .error _ => false

/-- Observable outcome of one handler invocation: the follower state
afterwards, the blocks written to block storage (`block_storage.write_block`),
the view-change terms broadcast (`broadcast_view_change`), the round-state
slot retired by the ring shift of a successful commit (the code's
`old_round_state`), and the handler's return value. The world-state
application and the commit-changed broadcast happen exactly on the paths that
persist a block; the queue pruning done there is `pruneQueue` applied to the
persisted block's transactions. -/
structure Outcome where
  state : FollowerState
  persisted : List Block
  viewChanges : List LeaderTerm
  retired : Option RoundState
  result : ConsensusResult
deriving DecidableEq, Repr

/-- State change of `request_view_change` in `follower.rs`: set the view
phase for term `leader_term + 1` to `ViewChanging` (a `set_view_phase` error
is logged and ignored) and broadcast `ViewChange`. -/
def requestViewChangeState (st : FollowerState) : FollowerState :=
  { st with view_changing := some (st.leader_term + 1) }

/-- Outcome of an error return path that performs no state change. -/
def errOut (st : FollowerState) (e : Error) : Outcome :=
  { state := st, persisted := [], viewChanges := [], retired := none,
    result := .error e }

/-- Outcome of an error return path preceded by `request_view_change`. -/
def vcErrOut (st : FollowerState) (e : Error) : Outcome :=
  { state := requestViewChangeState st, persisted := [],
    viewChanges := [st.leader_term + 1], retired := none, result := .error e }

/-- Signature-map loop shared by `handle_append_message` (lines 134–147) and
`handle_commit_message_inner` (lines 316–329): for each entry in iteration
order, verify the signature over the acknowledgement payload (failure yields
`invalidSignature`, which the call sites answer with a view-change request),
then check the signer with `verify_is_rpu` (failure propagates through `?`
without a view-change request). -/
def checkAckSigs (env : Env) (payload : AckPayload) :
    SigMap → Option Error
  | [] => none
  | (peer, s) :: rest =>
    if !(verifySig peer payload s) then some .invalidSignature
    else if !(env.peers.contains peer) then some (.notAnRpu peer)
    else checkAckSigs env payload rest

/-- Transaction loop of `handle_append_message` (lines 157–175): verify each
transaction's client signature, then the external permission check; either
failure makes the handler request a view change and return the error. -/
def checkTxs (env : Env) : List SignedTx → Option Error
  | [] => none
  | t :: rest =>
    if !t.sigOk then some .invalidTransaction
    else if !(env.permOk t.signer t.tx) then some .permissionDenied
    else checkTxs env rest

/-- Phase meta extraction at the head of `handle_append_message`
(lines 101–113): a recorded `Prepare` meta is reused; from `Waiting` the
Prepare is allowed to have been missed and a fresh meta is built from the
current leader and the advertised block hash; any other phase rejects the
message with `WrongPhase`. -/
def appendPhaseMeta (env : Env) (st : FollowerState) (block_hash : BlockHash) :
    Phase → Option PhaseMeta
  | .prepare meta => some meta
  | .waiting => some ⟨env.leaderOf st.leader_term, block_hash⟩
  | _ => none

/-- Commit handler `handle_commit_message_inner` from `follower.rs`
(lines 252–364). The roster-size panic of `supermajority_reached` and the
`assert!` on the retired slot's buffer are modelled as `panicAssert`
outcomes. On success the committed block's hash also becomes the recorded
last block hash (modelled from the spec's chain-integrity invariant;
`state.rs`, which holds `last_block_hash`, is not among the given sources). -/
def handleCommitInner (env : Env) (st : FollowerState) (peer : PeerId)
    (leader_term : LeaderTerm) (block_number : BlockNumber)
    (block_hash : BlockHash) (ackappend_signatures : SigMap) : Outcome :=
  if !(isCurrentLeader env leader_term peer) then
    errOut st (.wrongLeader peer)
  else
    match st.verify_message_meta leader_term with
    | some e => errOut st e
    | none =>
      match st.round_state block_number with
      | .error e => errOut st e
      | .ok rs =>
        match rs.phase with
        | .waiting | .prepare _ =>
          { state := { st with round_state_slot :=
              ⟨rs.phase, some (.commit leader_term block_number block_hash
                ackappend_signatures)⟩ },
            persisted := [], viewChanges := [], retired := none,
            result := .error (.wrongPhase rs.phase.to_phase_name .append) }
        | .committed h =>
          errOut st (.wrongPhase (Phase.committed h).to_phase_name .append)
        | .append meta body =>
          if block_hash ≠ meta.block_hash then
            errOut st .changedBlockHash
          else if block_number ≠ st.block_number + 1 then
            errOut st (.wrongBlockNumber block_number)
          else if env.peers.length < 4 then
            errOut st .panicAssert
          else if !(supermajorityB env.peers.length
              ackappend_signatures.length) then
            vcErrOut st .notEnoughSignatures
          else
            match checkAckSigs env
                ⟨.ackAppend, leader_term, block_number, block_hash⟩
                ackappend_signatures with
            | some Error.invalidSignature => vcErrOut st .invalidSignature
            | some e => errOut st e
            | none =>
              match rs.buffered_commit_message with
              | some m =>
                { state := { st with round_state_slot := RoundState.dflt },
                  persisted := [], viewChanges := [],
                  retired := some ⟨.committed block_hash, some m⟩,
                  result := .error .panicAssert }
              | none =>
                { state := { st with
                    round_state_slot := RoundState.dflt,
                    block_number := block_number,
                    last_block_hash := block_hash },
                  persisted := [⟨body, ackappend_signatures⟩],
                  viewChanges := [],
                  retired := some ⟨.committed block_hash, none⟩,
                  result := .ok .ackCommit }

/-- Body recomputed by the Append handler (`follower.rs` lines 180–184):
height is the message's block number, the previous hash is the hash of the
last committed block, the transactions are the validated message payload. The
`leader_term` field is the in-scope message term; see `handleAppendMessage`
for the source's omission of that field. -/
def appendBody (st : FollowerState) (leader_term : LeaderTerm)
    (block_number : BlockNumber) (data : List SignedTx) : Body :=
  { leader_term := leader_term, height := block_number,
    prev_block_hash := st.last_block_hash, transactions := data }

/-- Follower state after the Append transition of `follower.rs` line 191:
the live slot moves to phase Append and its buffered Commit (if any) has been
taken. -/
def appendState (st : FollowerState) (meta : PhaseMeta) (body : Body) :
    FollowerState :=
  { st with round_state_slot := ⟨.append meta body, none⟩ }

/-- Append handler `handle_append_message` from `follower.rs` (lines 81–228).
The body handed to the hash check is built with the message's `leader_term`:
the source literal at lines 180–184 omits the `leader_term` field that
`block.rs`'s `Body` requires (it does not compile as given); the spec §4.3
step 5 names the term as part of the hashed tuple, and at this point the term
check has already forced it to equal the follower's current term. -/
def handleAppendMessage (env : Env) (st : FollowerState) (peer : PeerId)
    (leader_term : LeaderTerm) (block_number : BlockNumber)
    (block_hash : BlockHash) (ackprepare_signatures : SigMap)
    (data : List SignedTx) : Outcome :=
  if !(isCurrentLeader env leader_term peer) then
    errOut st (.wrongLeader peer)
  else
    match st.verify_message_meta leader_term with
    | some e => errOut st e
    | none =>
      match st.round_state block_number with
      | .error e => errOut st e
      | .ok rs =>
        match appendPhaseMeta env st block_hash rs.phase with
        | none =>
          errOut st (.wrongPhase rs.phase.to_phase_name .prepare)
        | some meta =>
          if block_hash ≠ meta.block_hash then
            errOut st .changedBlockHash
          else if block_number ≠ st.block_number + 1 then
            errOut st (.wrongBlockNumber block_number)
          else if env.peers.length < 4 then
            errOut st .panicAssert
          else if !(supermajorityB env.peers.length
              ackprepare_signatures.length) then
            vcErrOut st .notEnoughSignatures
          else
            match checkAckSigs env
                ⟨.ackPrepare, leader_term, block_number, block_hash⟩
                ackprepare_signatures with
            | some Error.invalidSignature => vcErrOut st .invalidSignature
            | some e => errOut st e
            | none =>
              if data.isEmpty then
                vcErrOut st .emptyBlock
              else
                match checkTxs env data with
                | some e => vcErrOut st e
                | none =>
                  if block_hash ≠ env.bodyHash
                      (appendBody st leader_term block_number data) then
                    errOut st .wrongBlockHash
                  else
                    match rs.buffered_commit_message with
                    | none =>
                      { state := appendState st meta
                          (appendBody st leader_term block_number data),
                        persisted := [], viewChanges := [],
                        retired := none,
                        result := .ok (.ackAppend st.leader_term block_number
                          block_hash) }
                    | some (.commit blt bbn bbh bsigs) =>
                      { state := (handleCommitInner env
                          (appendState st meta
                            (appendBody st leader_term block_number data))
                          peer blt bbn bbh bsigs).state,
                        persisted := (handleCommitInner env
                          (appendState st meta
                            (appendBody st leader_term block_number data))
                          peer blt bbn bbh bsigs).persisted,
                        viewChanges := (handleCommitInner env
                          (appendState st meta
                            (appendBody st leader_term block_number data))
                          peer blt bbn bbh bsigs).viewChanges,
                        retired := (handleCommitInner env
                          (appendState st meta
                            (appendBody st leader_term block_number data))
                          peer blt bbn bbh bsigs).retired,
                        result := .ok (.ackAppend st.leader_term block_number
                          block_hash) }
                    | some _ =>
                      { state := appendState st meta
                          (appendBody st leader_term block_number data),
                        persisted := [], viewChanges := [],
                        retired := none, result := .error .panicAssert }

/-! ## Concrete fixtures

A four-peer roster with peer 0 as the permanent leader, used to instantiate
the claim theorems on concrete inputs. The body-hash stand-in is an arbitrary
computable function of the body's fields. -/

/-- Four-peer environment for the witnesses. -/
def claimEnv : Env :=
  { peers := [0, 1, 2, 3], leaderOf := fun _ => 0, permOk := fun _ _ => true,
    bodyHash := fun b =>
      1000 + b.height + 31 * b.prev_block_hash + 101 * b.transactions.length }

/-- Freshly started follower state for the witnesses. -/
def claimSt0 : FollowerState :=
  { leader_term := 0, block_number := 0, last_block_hash := 0,
    round_state_slot := RoundState.dflt, view_changing := none }

/-- A valid client transaction for the witnesses. -/
def claimTx : SignedTx := { signer := 9, tx := 42, sigOk := true }

/-- Three valid AckPrepare signatures for block 1 of term 0 on a given hash. -/
def claimPrepSigs (bh : BlockHash) : SigMap :=
  [(1, ⟨1, ⟨.ackPrepare, 0, 1, bh⟩⟩), (2, ⟨2, ⟨.ackPrepare, 0, 1, bh⟩⟩),
   (3, ⟨3, ⟨.ackPrepare, 0, 1, bh⟩⟩)]

/-- Three valid AckAppend signatures for block 1 of term 0 on a given hash. -/
def claimAppSigs (bh : BlockHash) : SigMap :=
  [(1, ⟨1, ⟨.ackAppend, 0, 1, bh⟩⟩), (2, ⟨2, ⟨.ackAppend, 0, 1, bh⟩⟩),
   (3, ⟨3, ⟨.ackAppend, 0, 1, bh⟩⟩)]

/-- Body of the first block, holding just `claimTx`. -/
def claimBody1 : Body :=
  { leader_term := 0, height := 1, prev_block_hash := 0,
    transactions := [claimTx] }

/-- Hash of the first block body holding just `claimTx`. -/
def claimBh1 : BlockHash := claimEnv.bodyHash claimBody1

/-- Follower state whose slot is in phase Append for block 1. -/
def claimSt1 : FollowerState :=
  { claimSt0 with round_state_slot := ⟨.append ⟨0, claimBh1⟩ claimBody1, none⟩ }

/-- Follower state with an out-of-order Commit buffered for a hash the later
Append will not confirm (`claimBh1 + 1`), so that applying it fails. -/
def claimStBuf : FollowerState :=
  { claimSt0 with round_state_slot :=
      ⟨.waiting, some (.commit 0 1 (claimBh1 + 1)
        (claimAppSigs (claimBh1 + 1)))⟩ }

/-! ## Claims -/

/-- C2: for every peer-set size `n ≥ 4` and every count `k`, the
supermajority predicate answers `true` if and only if `k ≥ ⌊2n/3⌋ + 1`
(and does not panic). -/
theorem claim2_supermajority_iff (n k : Nat) (h : 4 ≤ n) :
    supermajority_reached n k = some true ↔ 2 * n / 3 + 1 ≤ k := by
  have hn : ¬ n < 4 := by omega
  simp [supermajority_reached, hn, Nat.mul_comm n 2]

/-- Witness for C2 at `n = 4`, `k = 3`. -/
theorem claim2_witness :
    (4 ≤ 4) ∧ (supermajority_reached 4 3 = some true ↔ 2 * 4 / 3 + 1 ≤ 3) :=
  ⟨by decide, claim2_supermajority_iff 4 3 (by decide)⟩

/-- Counterexample to C8: `PRaftBFT::new` does not reject small rosters — a
roster of a single peer containing the local identity constructs
successfully. -/
theorem claim8_counterexample :
    PRaftBFT.new 0 [(0, 0)] = some { peers := [(0, 0)], identity := 0 } ∧
    List.length [((0 : PeerId), (0 : SocketAddr))] < 4 := by
  decide

/-- The constructor succeeds exactly when the local identity is a key of the
peers map; helper shared by the claims about `PRaftBFT::new`. -/
theorem new_isSome_iff (identity : PeerId)
    (peers : List (PeerId × SocketAddr)) :
    (PRaftBFT.new identity peers).isSome ↔ ∃ a, (identity, a) ∈ peers := by
  simp only [PRaftBFT.new]
  by_cases hc : peers.any (fun p => p.1 == identity)
  · rcases List.any_eq_true.mp hc with ⟨⟨p, a⟩, hmem, hp⟩
    rw [if_pos hc]
    exact ⟨fun _ => ⟨a, by simpa using (beq_iff_eq.mp hp) ▸ hmem⟩,
      fun _ => rfl⟩
  · rw [if_neg hc]
    constructor
    · intro h; simp at h
    · rintro ⟨a, ha⟩
      exact absurd (List.any_eq_true.mpr ⟨(identity, a), ha, by simp⟩) hc

/-- C8 (amended): the constructor does not inspect the roster size; it fails
(panics) exactly when the local identity is not a key of the peers map. The
`n < 4` rejection lives in `supermajority_reached`, which panics whenever the
roster has fewer than four peers. -/
theorem claim8_amended (identity : PeerId) (peers : List (PeerId × SocketAddr))
    (n k : Nat) :
    ((PRaftBFT.new identity peers).isSome ↔ ∃ a, (identity, a) ∈ peers) ∧
    (n < 4 → supermajority_reached n k = none) := by
  refine ⟨new_isSome_iff identity peers, fun hn => ?_⟩
  simp [supermajority_reached, hn]

/-- Witness for C8's amended statement at a concrete roster and a concrete
undersized count. -/
theorem claim8_witness :
    (((PRaftBFT.new 5 [(0, 0), (5, 1)]).isSome ↔
        ∃ a, ((5 : PeerId), a) ∈ [((0 : PeerId), (0 : SocketAddr)), (5, 1)]) ∧
      (3 < 4 → supermajority_reached 3 7 = none)) :=
  claim8_amended 5 [(0, 0), (5, 1)] 3 7

/-- C9: `PRaftBFT::new` panics (modelled as `none`) exactly when the local
identity's peer id is not a key of the supplied peers map; when it is
contained, construction succeeds with a handle, and no other input causes a
constructor failure. -/
theorem claim9_new_total (identity : PeerId)
    (peers : List (PeerId × SocketAddr)) :
    (PRaftBFT.new identity peers = none ↔ ¬ ∃ a, (identity, a) ∈ peers) := by
  rw [← Option.not_isSome_iff_eq_none]
  exact not_congr (new_isSome_iff identity peers)

/-- Witness for C9 at a roster that does not contain the identity. -/
theorem claim9_witness :
    (PRaftBFT.new 7 [(0, 0), (1, 1)] = none ↔
      ¬ ∃ a, ((7 : PeerId), a) ∈ [((0 : PeerId), (0 : SocketAddr)), (1, 1)]) :=
  claim9_new_total 7 [(0, 0), (1, 1)]

/-- Counterexample to C7: with the same transaction queued twice and committed
once, the pruning removes both queue entries, not just the committed one — the
claim predicts that exactly one entry remains. -/
theorem claim7_counterexample :
    (pruneQueue [⟨0, 0, true⟩]
      (take_transactions (take_transactions [] 0 [⟨0, 0, true⟩]) 1
        [⟨0, 0, true⟩])).length ≠ 1 := by
  decide

/-- C7 (amended): inserting the same transaction twice yields exactly two
queue entries, and pruning after a commit removes every queue entry whose
transaction equals some committed transaction — duplicates beyond those
committed are removed too; only entries matching no committed transaction
remain for the next block. -/
theorem claim7_amended (q : Queue) (now1 now2 : Nat) (t : SignedTx)
    (committed : List SignedTx) :
    take_transactions (take_transactions q now1 [t]) now2 [t] =
      (q ++ [(now1, t)]) ++ [(now2, t)] ∧
    (take_transactions (take_transactions q now1 [t]) now2 [t]).length =
      q.length + 2 ∧
    (∀ e : Nat × SignedTx,
      (pruneQueue committed q).count e =
        if e.2 ∈ committed then 0 else q.count e) := by
  refine ⟨by simp [take_transactions], by simp [take_transactions], ?_⟩
  intro e
  by_cases hec : e.2 ∈ committed
  · rw [if_pos hec, List.count_eq_zero]
    intro hmem
    have hp := List.of_mem_filter hmem
    simp at hp
    exact hp hec
  · rw [if_neg hec]
    exact List.count_filter (by simp [hec])

/-- Witness for C7's amended statement on a concrete queue. -/
theorem claim7_witness :
    (take_transactions
        (take_transactions [((9 : Nat), (⟨1, 1, true⟩ : SignedTx))] 0
          [⟨0, 0, true⟩]) 1 [⟨0, 0, true⟩] =
      ([((9 : Nat), (⟨1, 1, true⟩ : SignedTx))] ++ [(0, ⟨0, 0, true⟩)]) ++
        [(1, ⟨0, 0, true⟩)] ∧
    (take_transactions
        (take_transactions [((9 : Nat), (⟨1, 1, true⟩ : SignedTx))] 0
          [⟨0, 0, true⟩]) 1 [⟨0, 0, true⟩]).length =
      [((9 : Nat), (⟨1, 1, true⟩ : SignedTx))].length + 2 ∧
    (∀ e : Nat × SignedTx,
      (pruneQueue [⟨0, 0, true⟩] [((9 : Nat), (⟨1, 1, true⟩ : SignedTx))]).count e =
        if e.2 ∈ [(⟨0, 0, true⟩ : SignedTx)] then 0
        else ([((9 : Nat), (⟨1, 1, true⟩ : SignedTx))]).count e)) :=
  claim7_amended [(9, ⟨1, 1, true⟩)] 0 1 ⟨0, 0, true⟩ [⟨0, 0, true⟩]

/-- Counterexample to C5: in a window where a commit occurred but no new-view
notification arrived and an old transaction sits in the queue, the watchdog as
implemented requests a view change, while the claim — timer restarted by the
commit — predicts that nothing is requested. -/
theorem claim5_counterexample :
    censorshipStep true false [(0, ⟨0, 0, true⟩)] 11 0 = some 1 ∧
    censorshipStepSpec true false [(0, ⟨0, 0, true⟩)] 11 0 = none ∧
    censorshipStep true false [(0, ⟨0, 0, true⟩)] 11 0 ≠
      censorshipStepSpec true false [(0, ⟨0, 0, true⟩)] 11 0 := by
  decide

/-- C5 (amended): the censorship watchdog restarts its timer on new-view
(leader-change) notifications — not on commits; when the timer expires with no
such notification and some queued transaction's arrival timestamp is older
than `CENSORSHIP_TIMEOUT` (10 seconds), it requests a view change against the
current leader (term + 1); if no queued transaction is that old, it requests
nothing. -/
theorem claim5_amended (commitOccurred newViewOccurred : Bool) (queue : Queue)
    (now : Nat) (lt : LeaderTerm) :
    (newViewOccurred = true →
      censorshipStep commitOccurred newViewOccurred queue now lt = none) ∧
    (newViewOccurred = false →
      ((∃ e ∈ queue, CENSORSHIP_TIMEOUT < now - e.1) →
        censorshipStep commitOccurred newViewOccurred queue now lt =
          some (lt + 1)) ∧
      ((∀ e ∈ queue, ¬ CENSORSHIP_TIMEOUT < now - e.1) →
        censorshipStep commitOccurred newViewOccurred queue now lt = none)) := by
  refine ⟨fun h => by simp [censorshipStep, h], fun h => ⟨?_, ?_⟩⟩
  · rintro ⟨e, he, holder⟩
    have hany : queue.any (fun e => decide (CENSORSHIP_TIMEOUT < now - e.1)) :=
      List.any_eq_true.mpr ⟨e, he, by simpa using holder⟩
    simp [censorshipStep, h, hany]
  · intro hall
    have hany : queue.any (fun e => decide (CENSORSHIP_TIMEOUT < now - e.1)) = false := by
      rw [List.any_eq_false]
      intro e he
      simpa using hall e he
    simp [censorshipStep, h, hany]

/-- Witness for C5's amended statement on a concrete window. -/
theorem claim5_witness :
    ((false : Bool) = true →
      censorshipStep true false [((0 : Nat), (⟨0, 0, true⟩ : SignedTx))] 11 0 = none) ∧
    ((false : Bool) = false →
      ((∃ e ∈ [((0 : Nat), (⟨0, 0, true⟩ : SignedTx))],
          CENSORSHIP_TIMEOUT < 11 - e.1) →
        censorshipStep true false [((0 : Nat), (⟨0, 0, true⟩ : SignedTx))] 11 0 =
          some (0 + 1)) ∧
      ((∀ e ∈ [((0 : Nat), (⟨0, 0, true⟩ : SignedTx))],
          ¬ CENSORSHIP_TIMEOUT < 11 - e.1) →
        censorshipStep true false [((0 : Nat), (⟨0, 0, true⟩ : SignedTx))] 11 0 =
          none)) :=
  claim5_amended true false [(0, ⟨0, 0, true⟩)] 11 0

/-- C6: an Append whose transaction list is empty, after passing the leader,
term, block-number, phase, block-hash and AckPrepare-signature checks, makes
the follower request a view change for term `current_term + 1` and return
`EmptyBlock`, leaving the round phase unchanged (and persisting nothing). -/
theorem claim6_empty_block (env : Env) (st : FollowerState) (peer : PeerId)
    (lt : LeaderTerm) (bn : BlockNumber) (bh : BlockHash) (psigs : SigMap)
    (meta : PhaseMeta)
    (hld : isCurrentLeader env lt peer = true)
    (hterm : lt = st.leader_term)
    (hbn : bn = st.block_number + 1)
    (hmeta : appendPhaseMeta env st bh st.round_state_slot.phase = some meta)
    (hhash : bh = meta.block_hash)
    (h4 : ¬ env.peers.length < 4)
    (hsup : supermajorityB env.peers.length psigs.length = true)
    (hsig : checkAckSigs env ⟨.ackPrepare, lt, bn, bh⟩ psigs = none) :
    (handleAppendMessage env st peer lt bn bh psigs []).result =
      .error .emptyBlock ∧
    (handleAppendMessage env st peer lt bn bh psigs []).viewChanges =
      [st.leader_term + 1] ∧
    (handleAppendMessage env st peer lt bn bh psigs []).state.round_state_slot.phase =
      st.round_state_slot.phase ∧
    (handleAppendMessage env st peer lt bn bh psigs []).persisted = [] := by
  subst hterm hbn hhash
  simp only [handleAppendMessage, hld, Bool.not_true, Bool.false_eq_true,
    if_false, FollowerState.verify_message_meta, ne_eq, not_true_eq_false,
    if_neg, FollowerState.round_state, if_pos rfl, hmeta, hsup, hsig, h4,
    List.isEmpty_nil, vcErrOut, requestViewChangeState]
  simp [hmeta]

/-- Witness for C6: a concrete empty Append over a four-peer roster. -/
theorem claim6_witness :
    (isCurrentLeader claimEnv 0 0 = true) ∧
    ((0 : LeaderTerm) = claimSt0.leader_term) ∧
    ((1 : BlockNumber) = claimSt0.block_number + 1) ∧
    (appendPhaseMeta claimEnv claimSt0 77 claimSt0.round_state_slot.phase =
      some ⟨0, 77⟩) ∧
    ((77 : BlockHash) = PhaseMeta.block_hash ⟨0, 77⟩) ∧
    (¬ claimEnv.peers.length < 4) ∧
    (supermajorityB claimEnv.peers.length (claimPrepSigs 77).length = true) ∧
    (checkAckSigs claimEnv ⟨.ackPrepare, 0, 1, 77⟩ (claimPrepSigs 77) = none) ∧
    ((handleAppendMessage claimEnv claimSt0 0 0 1 77 (claimPrepSigs 77) []).result =
      .error .emptyBlock ∧
    (handleAppendMessage claimEnv claimSt0 0 0 1 77 (claimPrepSigs 77) []).viewChanges =
      [claimSt0.leader_term + 1] ∧
    (handleAppendMessage claimEnv claimSt0 0 0 1 77
        (claimPrepSigs 77) []).state.round_state_slot.phase =
      claimSt0.round_state_slot.phase ∧
    (handleAppendMessage claimEnv claimSt0 0 0 1 77 (claimPrepSigs 77) []).persisted =
      []) :=
  ⟨by decide, by decide, by decide, by decide, by decide, by decide,
    by decide, by decide,
    claim6_empty_block claimEnv claimSt0 0 0 1 77 (claimPrepSigs 77) ⟨0, 77⟩
      (by decide) (by decide) (by decide) (by decide) (by decide) (by decide)
      (by decide) (by decide)⟩

/-- C4: when every validation up to the body-hash comparison passes but the
recomputed body hash — over the tuple `(leader_term, height,
prev_block_hash = last committed hash, transactions)` — differs from the
advertised `block_hash`, the Append handler returns `WrongBlockHash` with the
follower state entirely unchanged and nothing persisted. The hashed tuple
includes `leader_term` per `block.rs` and the spec; the source literal at
`follower.rs:180` omits that required field and does not compile as given,
which is the code bug this claim surfaces. -/
theorem claim4_wrong_block_hash (env : Env) (st : FollowerState)
    (peer : PeerId) (lt : LeaderTerm) (bn : BlockNumber) (bh : BlockHash)
    (psigs : SigMap) (data : List SignedTx) (meta : PhaseMeta)
    (hld : isCurrentLeader env lt peer = true)
    (hterm : lt = st.leader_term)
    (hbn : bn = st.block_number + 1)
    (hmeta : appendPhaseMeta env st bh st.round_state_slot.phase = some meta)
    (hhash : bh = meta.block_hash)
    (h4 : ¬ env.peers.length < 4)
    (hsup : supermajorityB env.peers.length psigs.length = true)
    (hsig : checkAckSigs env ⟨.ackPrepare, lt, bn, bh⟩ psigs = none)
    (hne : data.isEmpty = false)
    (htx : checkTxs env data = none)
    (hmism : bh ≠ env.bodyHash (appendBody st lt bn data)) :
    handleAppendMessage env st peer lt bn bh psigs data =
      errOut st .wrongBlockHash := by
  subst hterm hbn hhash
  simp only [handleAppendMessage, hld, Bool.not_true, Bool.false_eq_true,
    if_false, FollowerState.verify_message_meta, ne_eq, not_true_eq_false,
    if_neg, FollowerState.round_state, if_pos rfl, hsup, hsig, h4, hne, htx]
  simp [hmeta, hmism]

/-- Witness for C4: a concrete Append advertising hash 9999 while the body
hashes to 1102. -/
theorem claim4_witness :
    (isCurrentLeader claimEnv 0 0 = true) ∧
    (checkTxs claimEnv [claimTx] = none) ∧
    ((9999 : BlockHash) ≠ claimEnv.bodyHash (appendBody claimSt0 0 1 [claimTx])) ∧
    handleAppendMessage claimEnv claimSt0 0 0 1 9999 (claimPrepSigs 9999)
        [claimTx] =
      errOut claimSt0 .wrongBlockHash :=
  ⟨by decide, by decide, by decide,
    claim4_wrong_block_hash claimEnv claimSt0 0 0 1 9999 (claimPrepSigs 9999)
      [claimTx] ⟨0, 9999⟩ (by decide) (by decide) (by decide) (by decide)
      (by decide) (by decide) (by decide) (by decide) (by decide) (by decide)
      (by decide)⟩

/-- The ring lookup succeeds exactly on the live slot: helper inverting
`FollowerState.round_state`. -/
theorem round_state_ok (st : FollowerState) (bn : BlockNumber)
    (rs : RoundState) (h : st.round_state bn = .ok rs) :
    rs = st.round_state_slot ∧ bn = st.block_number + 1 := by
  by_cases hbn : bn = st.block_number + 1
  · rw [FollowerState.round_state, if_pos hbn] at h
    exact ⟨(Except.ok.inj h).symm, hbn⟩
  · rw [FollowerState.round_state, if_neg hbn] at h
    exact absurd h (by simp)

/-- The signature loop accepts a map exactly when every entry's signature
verifies over the payload and every signer is a roster member. -/
theorem checkAckSigs_none_iff (env : Env) (payload : AckPayload)
    (sigs : SigMap) :
    checkAckSigs env payload sigs = none ↔
      ∀ e ∈ sigs, verifySig e.1 payload e.2 = true ∧ e.1 ∈ env.peers := by
  induction sigs with
  | nil => simp [checkAckSigs]
  | cons hd tl ih =>
    obtain ⟨p, s⟩ := hd
    by_cases hv : verifySig p payload s = true
    · by_cases hr : env.peers.contains p = true
      · have hpm : p ∈ env.peers := List.elem_iff.mp hr
        simp [checkAckSigs, hv, hr, ih, hpm]
      · have hpm : p ∉ env.peers := fun hm => hr (List.elem_iff.mpr hm)
        simp [checkAckSigs, hv, hpm]
    · simp [checkAckSigs, hv]

/-- The quorum formula in the claims' `⌊2n/3⌋ + 1` spelling. -/
theorem supermajorityB_le (len k : Nat) (h : supermajorityB len k = true) :
    2 * len / 3 + 1 ≤ k := by
  have := of_decide_eq_true h
  omega

/-- C1: the Commit handler returns `AckCommit` only when the AckAppend
signature map reaches `⌊2n/3⌋ + 1`, every signature verifies over the
canonical `AckAppend(term, height, hash)` payload, every signer is a roster
member, the slot was in phase Append, and the persisted block carries exactly
the given signature map while the slot is moved to `Committed` (observed in
the retired slot) and the committed height advances; when the quorum or any
signature or roster check fails, nothing is persisted, no slot reaches
`Committed`, and the round phase is unchanged. -/
theorem claim1_commit_quorum (env : Env) (st : FollowerState) (peer : PeerId)
    (lt : LeaderTerm) (bn : BlockNumber) (bh : BlockHash) (sigs : SigMap) :
    ((handleCommitInner env st peer lt bn bh sigs).result = .ok .ackCommit →
      2 * env.peers.length / 3 + 1 ≤ sigs.length ∧
      (∀ e ∈ sigs, verifySig e.1 ⟨.ackAppend, lt, bn, bh⟩ e.2 = true ∧
        e.1 ∈ env.peers) ∧
      (∃ meta body, st.round_state_slot.phase = .append meta body ∧
        (handleCommitInner env st peer lt bn bh sigs).persisted =
          [{ body := body, signatures := sigs }] ∧
        (handleCommitInner env st peer lt bn bh sigs).retired =
          some ⟨.committed bh, none⟩ ∧
        (handleCommitInner env st peer lt bn bh sigs).state.block_number = bn)) ∧
    ((supermajorityB env.peers.length sigs.length = false ∨
      ∃ e ∈ sigs, ¬(verifySig e.1 ⟨.ackAppend, lt, bn, bh⟩ e.2 = true ∧
        e.1 ∈ env.peers)) →
      (handleCommitInner env st peer lt bn bh sigs).persisted = [] ∧
      (handleCommitInner env st peer lt bn bh sigs).retired = none ∧
      (handleCommitInner env st peer lt bn bh
        sigs).state.round_state_slot.phase = st.round_state_slot.phase) := by
  unfold handleCommitInner
  split
  · simp [errOut]
  · split
    · simp [errOut]
    · split
      · simp [errOut]
      · rename_i rs heqrs
        obtain ⟨hrs, hbn⟩ := round_state_ok st bn rs heqrs
        subst hrs
        split
        all_goals try solve | simp [errOut]
        rename_i meta body heqph
        split
        all_goals try solve | simp [errOut]
        split
        all_goals try solve | simp [errOut]
        split
        all_goals try solve | simp [errOut]
        split
        all_goals try solve | simp [vcErrOut, requestViewChangeState]
        rename_i hsupt
        have hsup : supermajorityB env.peers.length sigs.length = true := by
          rcases Bool.eq_false_or_eq_true
            (supermajorityB env.peers.length sigs.length) with h | h
          · exact h
          · exact absurd (by simp [h]) hsupt
        split
        all_goals try solve | simp [errOut]
        all_goals try solve | simp [vcErrOut, requestViewChangeState]
        rename_i heqsig
        have hall := (checkAckSigs_none_iff env
          ⟨.ackAppend, lt, bn, bh⟩ sigs).mp heqsig
        split
        · constructor
          · intro hok; simp at hok
          · rintro (h | ⟨e, he, hbad⟩)
            · rw [hsup] at h; simp at h
            · exact absurd (hall e he) hbad
        · rename_i hbufnone
          constructor
          · intro _
            refine ⟨supermajorityB_le _ _ hsup, hall,
              meta, body, heqph, ?_, ?_, ?_⟩ <;> simp
          · rintro (h | ⟨e, he, hbad⟩)
            · rw [hsup] at h; simp at h
            · exact absurd (hall e he) hbad

/-- Witness for C1: the happy-path commit of block 1 under the four-peer
roster, obtained by applying the claim's theorem and discharging its
success-hypothesis by evaluation. -/
theorem claim1_witness :
    2 * claimEnv.peers.length / 3 + 1 ≤ (claimAppSigs claimBh1).length ∧
    (∀ e ∈ claimAppSigs claimBh1,
      verifySig e.1 ⟨.ackAppend, 0, 1, claimBh1⟩ e.2 = true ∧
        e.1 ∈ claimEnv.peers) ∧
    (∃ meta body, claimSt1.round_state_slot.phase = .append meta body ∧
      (handleCommitInner claimEnv claimSt1 0 0 1 claimBh1
        (claimAppSigs claimBh1)).persisted =
          [{ body := body, signatures := claimAppSigs claimBh1 }] ∧
      (handleCommitInner claimEnv claimSt1 0 0 1 claimBh1
        (claimAppSigs claimBh1)).retired = some ⟨.committed claimBh1, none⟩ ∧
      (handleCommitInner claimEnv claimSt1 0 0 1 claimBh1
        (claimAppSigs claimBh1)).state.block_number = 1) :=
  (claim1_commit_quorum claimEnv claimSt1 0 0 1 claimBh1
    (claimAppSigs claimBh1)).1 (by decide)

/-- The commit handler leaves no buffered message in the live slot when the
slot was in phase Append with an empty buffer: helper for the claims about
out-of-order Commits. -/
theorem commitInner_slotbuffer_none (env : Env) (st : FollowerState)
    (peer : PeerId) (lt : LeaderTerm) (bn : BlockNumber) (bh : BlockHash)
    (sigs : SigMap)
    (hph : ∃ pm pb, st.round_state_slot.phase = .append pm pb)
    (hbuf : st.round_state_slot.buffered_commit_message = none) :
    (handleCommitInner env st peer lt bn bh
      sigs).state.round_state_slot.buffered_commit_message = none := by
  obtain ⟨pm, pb, hph⟩ := hph
  unfold handleCommitInner
  split
  · simp [errOut, hbuf]
  · split
    · simp [errOut, hbuf]
    · split
      · simp [errOut, hbuf]
      · rename_i rs heqrs
        obtain ⟨hrs, hbnx⟩ := round_state_ok st bn rs heqrs
        subst hrs
        split
        all_goals try solve | simp [errOut, hbuf] | simp_all
        split
        all_goals try solve | simp [errOut, hbuf]
        split
        all_goals try solve | simp [errOut, hbuf]
        split
        all_goals try solve | simp [errOut, hbuf]
        split
        all_goals try solve
          | simp [vcErrOut, requestViewChangeState, hbuf]
        split
        all_goals try solve
          | simp [vcErrOut, requestViewChangeState, hbuf]
          | simp [errOut, hbuf]
        split
        · simp_all
        · simp [RoundState.dflt]

/-- C3: a Commit received while the slot is in phase Waiting or Prepare is
stored as the slot's single buffered commit message and answered with
`WrongPhase`, the phase untouched and nothing persisted; the buffered Commit
is consumed exactly by an Append that passes all validations and sets phase
Append — a failed Append leaves the slot (buffer included) unchanged, a
successful one takes the buffer, applies it through the commit handler, and
still leaves no buffered message behind. -/
theorem claim3_buffered_commit (env : Env) (st : FollowerState)
    (peer : PeerId) (lt : LeaderTerm) (bn : BlockNumber) (bh : BlockHash)
    (sigs psigs : SigMap) (data : List SignedTx) :
    ((st.round_state_slot.phase = .waiting ∨
        (∃ pm, st.round_state_slot.phase = .prepare pm)) →
      isCurrentLeader env lt peer = true →
      lt = st.leader_term →
      bn = st.block_number + 1 →
      handleCommitInner env st peer lt bn bh sigs =
        { state := { st with round_state_slot :=
            ⟨st.round_state_slot.phase, some (.commit lt bn bh sigs)⟩ },
          persisted := [], viewChanges := [], retired := none,
          result := .error
            (.wrongPhase st.round_state_slot.phase.to_phase_name
              .append) }) ∧
    (∀ blt bbn bbh bsigs,
      st.round_state_slot.buffered_commit_message =
        some (.commit blt bbn bbh bsigs) →
      (∀ e, (handleAppendMessage env st peer lt bn bh psigs data).result =
          .error e →
        (handleAppendMessage env st peer lt bn bh
          psigs data).state.round_state_slot = st.round_state_slot) ∧
      (∀ m, (handleAppendMessage env st peer lt bn bh psigs data).result =
          .ok m →
        m = .ackAppend st.leader_term bn bh ∧
        (∃ meta,
          appendPhaseMeta env st bh st.round_state_slot.phase = some meta ∧
          handleAppendMessage env st peer lt bn bh psigs data =
            { state := (handleCommitInner env
                (appendState st meta (appendBody st lt bn data))
                peer blt bbn bbh bsigs).state,
              persisted := (handleCommitInner env
                (appendState st meta (appendBody st lt bn data))
                peer blt bbn bbh bsigs).persisted,
              viewChanges := (handleCommitInner env
                (appendState st meta (appendBody st lt bn data))
                peer blt bbn bbh bsigs).viewChanges,
              retired := (handleCommitInner env
                (appendState st meta (appendBody st lt bn data))
                peer blt bbn bbh bsigs).retired,
              result := .ok (.ackAppend st.leader_term bn bh) }) ∧
        (handleAppendMessage env st peer lt bn bh
          psigs data).state.round_state_slot.buffered_commit_message =
            none)) := by
  constructor
  · rintro hph hld hterm hbn
    subst hterm hbn
    unfold handleCommitInner
    rcases hph with hph | ⟨pm, hph⟩ <;>
      simp [hld, FollowerState.verify_message_meta,
        FollowerState.round_state, hph]
  · rintro blt bbn bbh bsigs hbuf
    constructor
    · intro e
      unfold handleAppendMessage
      split
      · simp [errOut]
      · split
        · simp [errOut]
        · split
          · simp [errOut]
          · rename_i rs heqrs
            obtain ⟨hrs, hbnx⟩ := round_state_ok st bn rs heqrs
            subst hrs
            split
            · simp [errOut]
            · split
              all_goals try solve | simp [errOut]
              split
              all_goals try solve | simp [errOut]
              split
              all_goals try solve | simp [errOut]
              split
              all_goals try solve
                | simp [vcErrOut, requestViewChangeState]
              split
              all_goals try solve
                | simp [vcErrOut, requestViewChangeState]
                | simp [errOut]
              split
              all_goals try solve
                | simp [vcErrOut, requestViewChangeState]
              split
              all_goals try solve
                | simp [vcErrOut, requestViewChangeState]
                | simp [errOut]
              split
              all_goals try solve | simp [errOut]
              split
              all_goals try solve | simp_all
              rename_i hrefute heqb
              rw [hbuf] at heqb
              intro _
              exact absurd (Option.some.inj heqb).symm
                (fun hc => hrefute blt bbn bbh bsigs hc)
    · intro m
      unfold handleAppendMessage
      split
      · simp [errOut]
      · split
        · simp [errOut]
        · split
          · simp [errOut]
          · rename_i rs heqrs
            obtain ⟨hrs, hbnx⟩ := round_state_ok st bn rs heqrs
            subst hrs
            split
            · simp [errOut]
            · rename_i meta heqmeta
              split
              all_goals try solve | simp [errOut]
              split
              all_goals try solve | simp [errOut]
              split
              all_goals try solve | simp [errOut]
              split
              all_goals try solve
                | simp [vcErrOut, requestViewChangeState]
              split
              all_goals try solve
                | simp [vcErrOut, requestViewChangeState]
                | simp [errOut]
              split
              all_goals try solve
                | simp [vcErrOut, requestViewChangeState]
              split
              all_goals try solve
                | simp [vcErrOut, requestViewChangeState]
                | simp [errOut]
              split
              all_goals try solve | simp [errOut]
              split
              · simp_all
              · rename_i blt1 bbn1 bbh1 bsigs1 heqb
                rw [hbuf] at heqb
                have hinj := Option.some.inj heqb
                injection hinj with h1 h2 h3 h4
                subst h1
                subst h2
                subst h3
                subst h4
                intro hm
                simp only [ConsensusResult.ok.injEq] at hm
                refine ⟨hm.symm, ⟨meta, heqmeta, rfl⟩, ?_⟩
                have hb := commitInner_slotbuffer_none env
                  (appendState st meta (appendBody st lt bn data)) peer
                  blt bbn bbh bsigs
                  ⟨meta, appendBody st lt bn data, rfl⟩ rfl
                simpa using hb
              · intro hm
                simp at hm

/-- Witness for C3: a Commit arriving at a freshly waiting slot is buffered
and answered with `WrongPhase`. -/
theorem claim3_witness :
    handleCommitInner claimEnv claimSt0 0 0 1 claimBh1
        (claimAppSigs claimBh1) =
      { state := { claimSt0 with round_state_slot :=
          ⟨claimSt0.round_state_slot.phase,
            some (.commit 0 1 claimBh1 (claimAppSigs claimBh1))⟩ },
        persisted := [], viewChanges := [], retired := none,
        result := .error
          (.wrongPhase claimSt0.round_state_slot.phase.to_phase_name
            .append) } :=
  (claim3_buffered_commit claimEnv claimSt0 0 0 1 claimBh1
      (claimAppSigs claimBh1) (claimPrepSigs claimBh1) [claimTx]).1
    (Or.inl (by decide)) (by decide) (by decide) (by decide)

/-- C10: when an Append that passes all its validations consumes a buffered
out-of-order Commit and applying that Commit fails, the failure is discarded
(only logged): the slot's buffer stays consumed — it holds no message
afterwards — and the Append handler still returns the signed AckAppend for
the height. -/
theorem claim10_discarded_failure (env : Env) (st : FollowerState)
    (peer : PeerId) (lt : LeaderTerm) (bn : BlockNumber) (bh : BlockHash)
    (psigs : SigMap) (data : List SignedTx) (blt : LeaderTerm)
    (bbn : BlockNumber) (bbh : BlockHash) (bsigs : SigMap) (meta : PhaseMeta)
    (hbuf : st.round_state_slot.buffered_commit_message =
      some (.commit blt bbn bbh bsigs))
    (hld : isCurrentLeader env lt peer = true)
    (hterm : lt = st.leader_term)
    (hbn : bn = st.block_number + 1)
    (hmeta : appendPhaseMeta env st bh st.round_state_slot.phase = some meta)
    (hhash : bh = meta.block_hash)
    (h4 : ¬ env.peers.length < 4)
    (hsup : supermajorityB env.peers.length psigs.length = true)
    (hsig : checkAckSigs env ⟨.ackPrepare, lt, bn, bh⟩ psigs = none)
    (hne : data.isEmpty = false)
    (htx : checkTxs env data = none)
    (hbh : bh = env.bodyHash (appendBody st lt bn data))
    (hfail : (handleCommitInner env
      (appendState st meta (appendBody st lt bn data)) peer blt bbn bbh
      bsigs).result.isOk = false) :
    (handleAppendMessage env st peer lt bn bh psigs data).result =
      .ok (.ackAppend st.leader_term bn bh) ∧
    (handleAppendMessage env st peer lt bn bh
      psigs data).state.round_state_slot.buffered_commit_message = none := by
  subst hterm hbn
  have hb := commitInner_slotbuffer_none env
    (appendState st meta (appendBody st st.leader_term
      (st.block_number + 1) data)) peer blt bbn bbh bsigs
    ⟨meta, appendBody st st.leader_term (st.block_number + 1) data, rfl⟩ rfl
  constructor <;>
  · simp only [handleAppendMessage, hld, Bool.not_true, Bool.false_eq_true,
      if_false, FollowerState.verify_message_meta, ne_eq, not_true_eq_false,
      if_neg, FollowerState.round_state, if_pos rfl, hsup, hsig, h4, hne,
      htx]
    simp [hmeta, hbuf, ← hhash, ← hbh, hb]

/-- Witness for C10: a buffered Commit for a different hash
(`claimBh1 + 1`) fails with `ChangedBlockHash` when applied; the Append still
acknowledges. -/
theorem claim10_witness :
    (handleAppendMessage claimEnv claimStBuf 0 0 1 claimBh1
      (claimPrepSigs claimBh1) [claimTx]).result =
        .ok (.ackAppend claimStBuf.leader_term 1 claimBh1) ∧
    (handleAppendMessage claimEnv claimStBuf 0 0 1 claimBh1
      (claimPrepSigs claimBh1)
      [claimTx]).state.round_state_slot.buffered_commit_message = none :=
  claim10_discarded_failure claimEnv claimStBuf 0 0 1 claimBh1
    (claimPrepSigs claimBh1) [claimTx] 0 1 (claimBh1 + 1)
    (claimAppSigs (claimBh1 + 1)) ⟨0, claimBh1⟩ (by decide) (by decide)
    (by decide) (by decide) (by decide) (by decide) (by decide) (by decide)
    (by decide) (by decide) (by decide) (by decide) (by decide)

end Prellblock
